import Mathlib

/-!
A shallow embedding of firejail, `src/firejail/sandbox.c`.

The C functions of `src/firejail/sandbox.c` are rendered as Lean functions.
System calls are answered by explicit oracles (arguments of the functions), and
every externally visible action is appended to an event trace, so that the order
of actions and the actions that did *not* happen can be stated.

Diagnostics written to standard output (`printf` under `arg_debug`, `fmessage`,
`fwarning`, `logmsg`) are not part of the traces; messages written with
`fprintf(stderr, ...)` are.  Allocation failures (`asprintf`, `strdup`) are not
modelled.
-/

namespace Firejail

/-! ## Executable lookup: `ok_to_run` -/

/-- File-system actions and messages of `ok_to_run`. -/
inductive FsEvent where
  | stat (fname : String)
  | access_x (fname : String)
  | stderr (msg : String)
  deriving DecidableEq, Repr

/-- Answers of the file system: `stat_ok f` is `stat(f, &s) == 0`,
`access_ok f` is `access(f, X_OK) == 0`. -/
structure FsOracle where
  stat_ok : String → Bool
  access_ok : String → Bool

/-- The tokens the loop `strtok(path2, ":")` / `strtok(NULL, ":")` yields: the
maximal non-empty runs of characters other than the delimiter. `cur` is the
token being accumulated. -/
def strtok_go (delim : Char) (cur : List Char) : List Char → List String
  | [] => if cur.isEmpty then [] else [String.mk cur]
  | c :: cs =>
    if c = delim then
      if cur.isEmpty then strtok_go delim [] cs
      else String.mk cur :: strtok_go delim [] cs
    else strtok_go delim (cur ++ [c]) cs

/-- All tokens of `s` for the delimiter `:`. -/
def strtok (s : String) : List String :=
  strtok_go ':' [] s.data

/-- The candidate built by `asprintf(&fname, "%s/%s", ptr, program)`. -/
def candidate (ptr program : String) : String :=
  ptr ++ "/" ++ program

/-- The `while (ptr)` loop of `ok_to_run` over the remaining tokens; returns the
value `ok_to_run` returns and the actions taken. -/
def search_path (fs : FsOracle) (program : String) : List String → Int × List FsEvent
  | [] => (0, [])
  | ptr :: rest =>
    let fname := candidate ptr program
    if fs.stat_ok fname then
      if fs.access_ok fname then
        (1, [FsEvent.stat fname, FsEvent.access_x fname])
      else
        (0, [FsEvent.stat fname, FsEvent.access_x fname,
             FsEvent.stderr ("Error: execute permission denied for " ++ fname ++ "\n")])
    else
      let r := search_path fs program rest
      (r.1, FsEvent.stat fname :: r.2)

/-- Whether `strstr(program, "/")` is non-NULL. -/
def has_slash (program : String) : Bool :=
  program.data.contains '/'

/-- The function `ok_to_run(program)`; `path` is the answer of `getenv("PATH")`. -/
def ok_to_run (fs : FsOracle) (path : Option String) (program : String) : Int × List FsEvent :=
  if has_slash program then
    if fs.access_ok program then (1, [FsEvent.access_x program])
    else (0, [FsEvent.access_x program])
  else
    match path with
    | none => (0, [])
    | some path1 => search_path fs program (strtok path1)

/-! ## Capability policy: `set_caps` -/

/-- A capability set: the numbers of the capabilities still held. -/
abbrev CapSet := List Nat

/-- The staged filter files `sandbox()` loads, named by their macros. -/
inductive SeccompFile where
  | RUN_SECCOMP_PROTOCOL
  | RUN_SECCOMP_MDWX
  deriving DecidableEq, Repr

/-- Calls made by the privilege-reduction part of `sandbox()` to the helpers of
`caps.c` and `seccomp.c`. -/
inductive PrivCall where
  | caps_drop_all
  | caps_drop_list (clist : Option (List Nat))
  | caps_keep_list (clist : Option (List Nat))
  | caps_default_filter
  | caps_drop_dac_override
  | seccomp_load (file : SeccompFile)
  | protocol_filter_save
  | seccomp_filter_keep
  | seccomp_filter_drop
  deriving DecidableEq, Repr

/-- The effect of each capability helper of `caps.c` on the capability set.
The helpers are not in `sandbox.c`; `set_caps` is parametric in them. -/
structure CapOps where
  drop_all : CapSet → CapSet
  drop_list : Option (List Nat) → CapSet → CapSet
  keep_list : Option (List Nat) → CapSet → CapSet
  default_filter : CapSet → CapSet
  drop_dac_override : CapSet → CapSet

/-- Number of `CAP_DAC_OVERRIDE` in `linux/capability.h`. -/
def CAP_DAC_OVERRIDE : Nat := 1

/-- Modelled from the spec: the capability helpers of `caps.c`
(`caps_drop_all`, `caps_drop_list`, `caps_keep_list`, `caps_default_filter`,
`caps_drop_dac_override`) are missing from the sources; the spec describes them
as drop-all, drop-named-list, keep-named-list, default-filtered-list and the
additional drop of the discretionary-access-control override capability.
`default_drop` is the table of capabilities the default filter removes. -/
def specCapOps (default_drop : List Nat) : CapOps where
  drop_all := fun _ => []
  drop_list := fun l s => s.filter (fun c => !(l.getD []).contains c)
  keep_list := fun l s => s.filter (fun c => (l.getD []).contains c)
  default_filter := fun s => s.filter (fun c => !default_drop.contains c)
  drop_dac_override := fun s => s.filter (fun c => c != CAP_DAC_OVERRIDE)

/-- The globals of firejail (`arg_*`, `cfg.*`, `enforce_seccomp`) that the
modelled parts of `sandbox.c` read or write.  Flags are C `int`s, pointers are
`Option`s (`none` is `NULL`). -/
structure Globals where
  arg_caps_drop_all : Int
  arg_caps_drop : Int
  arg_caps_keep : Int
  arg_caps_default_filter : Int
  arg_caps_list : Option (List Nat)
  arg_seccomp : Int
  enforce_seccomp : Int
  seccomp_list_drop : Option String
  seccomp_list_keep : Option String
  protocol : Option String
  arg_memory_deny_write_execute : Int
  arg_nogroups : Int
  arg_noroot : Int
  deriving DecidableEq, Repr

/-- The privilege state: the capability set and the helper calls made so far,
oldest first. -/
structure PrivState where
  caps : CapSet
  calls : List PrivCall
  deriving DecidableEq, Repr

/-- One helper call: its effect on the capability set, and its record. -/
def PrivState.call (s : PrivState) (f : CapSet → CapSet) (c : PrivCall) : PrivState :=
  { caps := f s.caps, calls := s.calls ++ [c] }

/-- The `if / else if` chain of `set_caps` that selects the policy operation. -/
def set_caps_policy (ops : CapOps) (g : Globals) (s : PrivState) : PrivState :=
  if g.arg_caps_drop_all ≠ 0 then
    s.call ops.drop_all PrivCall.caps_drop_all
  else if g.arg_caps_drop ≠ 0 then
    s.call (ops.drop_list g.arg_caps_list) (PrivCall.caps_drop_list g.arg_caps_list)
  else if g.arg_caps_keep ≠ 0 then
    s.call (ops.keep_list g.arg_caps_list) (PrivCall.caps_keep_list g.arg_caps_list)
  else if g.arg_caps_default_filter ≠ 0 then
    s.call ops.default_filter PrivCall.caps_default_filter
  else s

/-- The function `set_caps()`. -/
def set_caps (ops : CapOps) (g : Globals) (s : PrivState) : PrivState :=
  let s1 := set_caps_policy ops g s
  if g.arg_caps_keep = 0 then
    s1.call ops.drop_dac_override PrivCall.caps_drop_dac_override
  else s1

/-- The capability reset of a successful `unshare(CLONE_NEWUSER)`: the process
holds the default set of the new namespace; the record of calls is unchanged. -/
def userns_reset (ns_default : CapSet) (s : PrivState) : PrivState :=
  { s with caps := ns_default }

/-- The function `enforce_filters()`: the hard override applied when
`arg_appimage` is set. -/
def enforce_filters (g : Globals) : Globals :=
  { g with
    arg_seccomp := 1
    enforce_seccomp := 1
    seccomp_list_drop := none
    seccomp_list_keep := none
    arg_caps_drop_all := 1
    arg_nogroups := 1 }

/-- The "set seccomp" block of `sandbox()` (built with `HAVE_SECCOMP` and
`SYS_socket`): the helper calls it makes, in order. -/
def seccomp_stage (g : Globals) : List PrivCall :=
  (if g.protocol.isSome then
     [PrivCall.seccomp_load SeccompFile.RUN_SECCOMP_PROTOCOL, PrivCall.protocol_filter_save]
   else []) ++
  (if g.arg_seccomp = 1 then
     (if g.seccomp_list_keep.isSome then [PrivCall.seccomp_filter_keep]
      else [PrivCall.seccomp_filter_drop])
   else []) ++
  (if g.arg_memory_deny_write_execute ≠ 0 then
     [PrivCall.seccomp_load SeccompFile.RUN_SECCOMP_MDWX]
   else [])

/-! ## Supervision: `monitor_application` and `sandbox_handler` -/

/-- Signal number of `SIGTERM`. -/
def SIGTERM : Int := 15

/-- Signal number of `SIGKILL`. -/
def SIGKILL : Int := 9

/-- The `waitpid` option `WNOHANG`. -/
def WNOHANG : Int := 1

/-- Actions of the supervisor and of the signal handler. -/
inductive Ev where
  | waitpid (options : Int)
  | usleep (usec : Nat)
  | sleep (sec : Nat)
  | kill (pid : Int) (sig : Int)
  | flush_stdin
  | stderr (msg : String)
  deriving DecidableEq, Repr

/-- How a function that may call `exit` ends. -/
inductive Outcome where
  | returned (status : Int)
  | exited (code : Int)
  deriving DecidableEq, Repr

/-- Time spent sleeping in a trace, in microseconds. -/
def elapsed_usec : List Ev → Nat
  | [] => 0
  | Ev.usleep u :: es => u + elapsed_usec es
  | Ev.sleep s :: es => 1000000 * s + elapsed_usec es
  | _ :: es => elapsed_usec es

/-- One answer of `fopen("/proc/<pid>/cmdline")` + `fread` in the handler. -/
inductive Probe where
  | fopen_failed
  | read_nothing
  | read_byte
  deriving DecidableEq, Repr

/-- The `while (monsec)` loop of `sandbox_handler`; `i` counts the probes. -/
def handler_poll (probe : Nat → Probe) : Nat → Nat → List Ev
  | 0, _ => []
  | monsec + 1, i =>
    match probe i with
    | Probe.fopen_failed => []
    | Probe.read_nothing => []
    | Probe.read_byte => Ev.sleep 1 :: handler_poll probe monsec (i + 1)

/-- The function `sandbox_handler(sig)`: the actions up to `exit`, and the
argument of `exit`. -/
def sandbox_handler (probe : Nat → Probe) (monitored_pid : Int) (sig : Int) : List Ev × Outcome :=
  ([Ev.kill (-1) SIGTERM, Ev.sleep 1]
    ++ (if monitored_pid ≠ 0 then handler_poll probe 9 0 else [])
    ++ [Ev.kill (-1) SIGKILL, Ev.flush_stdin],
   Outcome.exited sig)

/-- One answer of `waitpid(-1, &status, options)`: the return value and the
value stored through the status pointer, if one is stored. -/
structure WaitRes where
  rv : Int
  status : Option Int

/-- The environment of `monitor_application`. -/
structure MonEnv where
  /-- The value of `cfg.timeout`, an `unsigned`. -/
  timeout : Nat
  /-- The value of `cfg.command_name`. -/
  command_name : String
  /-- Answer of the `i`-th call of `waitpid`. -/
  waitpid : Nat → WaitRes
  /-- Answer of the `i`-th call of `opendir("/proc")`: `none` is failure,
  otherwise the `d_name` of the entries in `readdir` order. -/
  opendir : Nat → Option (List String)
  /-- Answer of `sscanf(d_name, "%u", &pid)`: `none` when no number is converted. -/
  sscanf_u : String → Option Nat
  /-- Answer of `pid_proc_comm(pid)` during the rescan of the `i`-th opened directory. -/
  pid_proc_comm : Nat → Nat → Option String

/-- Conversion of an `unsigned` to `int` (assignment `monitored_pid = pid`). -/
def int_of_unsigned (n : Nat) : Int :=
  if n % 4294967296 < 2147483648 then ((n % 4294967296 : Nat) : Int)
  else ((n % 4294967296 : Nat) : Int) - 4294967296

/-- The `unsigned` values `sscanf` converts from the entries, in order. -/
def listed_pids (env : MonEnv) (entries : List String) : List Nat :=
  entries.filterMap (fun e => (env.sscanf_u e).map (fun p => p % 4294967296))

/-- The `found` flag of the rescan for process `pid`. -/
def is_dpid (env : MonEnv) (scan : Nat) (pid : Nat) : Bool :=
  env.command_name == "dillo" && env.pid_proc_comm scan pid == some "dpid"

/-- The `while ((entry = readdir(dir)) != NULL)` loop of `monitor_application`,
started with `monitored_pid = 0`; returns the new `monitored_pid`. -/
def rescan (env : MonEnv) (scan : Nat) : List String → Int
  | [] => 0
  | d_name :: rest =>
    match env.sscanf_u d_name with
    | none => rescan env scan rest
    | some p =>
      let pid := p % 4294967296
      if pid = 1 then rescan env scan rest
      else if is_dpid env scan pid then 0
      else int_of_unsigned pid

/-- The variables of `monitor_application`, the counters of the oracle calls
made so far, and the actions so far (oldest first). -/
structure MonState where
  monitored_pid : Int
  status : Int
  timeout : Nat
  nwait : Nat
  nopen : Nat
  trace : List Ev

/-- How the `do ... while (rv != monitored_pid)` loop ends. -/
inductive WaitEnd where
  | left (rv : Int) (st : MonState)
  | exited (code : Int) (trace : List Ev)

/-- The `do ... while (rv != monitored_pid)` loop; `none` when the fuel runs
out before the loop is left. -/
def wait_loop (env : MonEnv) (options : Int) : Nat → MonState → Option WaitEnd
  | 0, _ => none
  | fuel + 1, st =>
    let r := env.waitpid st.nwait
    let st1 : MonState :=
      { st with nwait := st.nwait + 1, status := r.status.getD st.status,
                trace := st.trace ++ [Ev.waitpid options] }
    if r.rv = -1 then some (WaitEnd.left r.rv st1)
    else if options ≠ 0 then
      let t := (st1.timeout + 4294967296 - 1) % 4294967296
      if t = 0 then
        some (WaitEnd.exited 1
          (st1.trace ++ [Ev.kill (-1) SIGTERM, Ev.flush_stdin, Ev.sleep 1]))
      else
        let st2 : MonState := { st1 with timeout := t, trace := st1.trace ++ [Ev.sleep 1] }
        if r.rv ≠ st2.monitored_pid then wait_loop env options fuel st2
        else some (WaitEnd.left r.rv st2)
    else
      if r.rv ≠ st1.monitored_pid then wait_loop env options fuel st1
      else some (WaitEnd.left r.rv st1)

/-- How the two `opendir("/proc")` attempts end. -/
inductive OpenEnd where
  | opened (entries : List String) (scan : Nat) (st : MonState)
  | exited (code : Int) (trace : List Ev)

/-- The `opendir("/proc")` block: one retry after two seconds, then `exit(1)`. -/
def open_proc (env : MonEnv) (st : MonState) : OpenEnd :=
  match env.opendir st.nopen with
  | some entries => OpenEnd.opened entries st.nopen { st with nopen := st.nopen + 1 }
  | none =>
    let st1 : MonState := { st with nopen := st.nopen + 1, trace := st.trace ++ [Ev.sleep 2] }
    match env.opendir st1.nopen with
    | some entries => OpenEnd.opened entries st1.nopen { st1 with nopen := st1.nopen + 1 }
    | none =>
      OpenEnd.exited 1 (st1.trace ++ [Ev.stderr "Error: cannot open /proc directory\n"])

/-- What follows the wait loop in one pass of `while (monitored_pid)`: the
one-second sleep after a failed `waitpid`, the opening of `/proc`, the rescan. -/
def after_wait (env : MonEnv) (rv : Int) (st : MonState) : OpenEnd :=
  let st1 : MonState := if rv = -1 then { st with trace := st.trace ++ [Ev.sleep 1] } else st
  match open_proc env st1 with
  | OpenEnd.exited c t => OpenEnd.exited c t
  | OpenEnd.opened entries scan st2 =>
    OpenEnd.opened entries scan { st2 with monitored_pid := rescan env scan entries }

/-- The loop `while (monitored_pid)` and the final `return status`; `none` when
the fuel runs out. -/
def monitor_loop (env : MonEnv) (options : Int) : Nat → MonState → Option (Outcome × List Ev)
  | 0, _ => none
  | fuel + 1, st =>
    if st.monitored_pid = 0 then some (Outcome.returned st.status, st.trace)
    else
      match wait_loop env options fuel { st with trace := st.trace ++ [Ev.usleep 20000] } with
      | none => none
      | some (WaitEnd.exited c t) => some (Outcome.exited c, t)
      | some (WaitEnd.left rv st1) =>
        match after_wait env rv st1 with
        | OpenEnd.exited c t => some (Outcome.exited c, t)
        | OpenEnd.opened _ _ st2 => monitor_loop env options fuel st2

/-- The state of `monitor_application(app_pid)` when it reaches its loop. -/
def monitor_init (env : MonEnv) (app_pid : Int) : MonState :=
  { monitored_pid := app_pid, status := 0,
    timeout := if env.timeout ≠ 0 then env.timeout else 0,
    nwait := 0, nopen := 0, trace := [] }

/-- The `options` of `monitor_application`: `WNOHANG` when a timeout is set. -/
def monitor_options (env : MonEnv) : Int :=
  if env.timeout ≠ 0 then WNOHANG else 0

/-- The function `monitor_application(app_pid)`.  The installation of the SIGTERM handler
and `EUID_USER()` are left out; the handler is `sandbox_handler`. -/
def monitor_application (env : MonEnv) (fuel : Nat) (app_pid : Int) : Option (Outcome × List Ev) :=
  monitor_loop env (monitor_options env) fuel (monitor_init env app_pid)

/-! ## Exit code of `sandbox()` -/

/-- The bit pattern of a C `int`. -/
def bits32 (x : Int) : Nat := (x % 4294967296).toNat

/-- The macro `WIFEXITED(status)` of `sys/wait.h`: `(status & 0x7f) == 0`. -/
def WIFEXITED (status : Int) : Bool :=
  (bits32 status &&& 0x7f) == 0

/-- The macro `WEXITSTATUS(status)` of `sys/wait.h`: `(status & 0xff00) >> 8`. -/
def WEXITSTATUS (status : Int) : Int :=
  (((bits32 status &&& 0xff00) >>> 8 : Nat) : Int)

/-- The value `sandbox()` returns for the status of `monitor_application`. -/
def sandbox_exit_code (status : Int) : Int :=
  if WIFEXITED status then WEXITSTATUS status else -1

/-! ## Bootstrap steps of `sandbox()` -/

/-- How a `void` function that may call `exit` ends. -/
inductive VoidEnd where
  | returned
  | exited (code : Int)
  deriving DecidableEq, Repr

/-- What `chk_chroot` reads from its environment. -/
structure ChrootEnv where
  /-- Answer of `getenv("container")`. -/
  container : Option String
  /-- Answer of `stat("/", &s)`: `none` when it fails, otherwise `s.st_ino`. -/
  stat_root : Option Nat

/-- The function `chk_chroot()`: the messages written to `stderr`, and how it
ends. -/
def chk_chroot (env : ChrootEnv) : List String × VoidEnd :=
  match env.container with
  | some _ => ([], VoidEnd.returned)
  | none =>
    match env.stat_root with
    | some st_ino =>
      if st_ino ≠ 2 then ([], VoidEnd.returned)
      else (["Error: cannot mount filesystem as slave\n"], VoidEnd.exited 1)
    | none => (["Error: cannot mount filesystem as slave\n"], VoidEnd.exited 1)

/-- The "mount namespace" step of `sandbox()`: `mount_rv` is the value returned
by `mount(NULL, "/", NULL, MS_SLAVE | MS_REC, NULL)`. -/
def mount_slave (mount_rv : Int) (env : ChrootEnv) : List String × VoidEnd :=
  if mount_rv < 0 then chk_chroot env else ([], VoidEnd.returned)

/-- What the working-directory block of `sandbox()` reads: `cfg.cwd`,
`cfg.homedir`, and the outcome of each call it can make (`true` is a return
value of 0, `false` the failure value -1). -/
structure CwdEnv where
  cwd : Option String
  homedir : Option String
  chdir_cwd_ok : Bool
  chdir_root_ok : Bool
  stat_home_ok : Bool
  chdir_home_ok : Bool

/-- Calls of the working-directory block. -/
inductive CwdEv where
  | chdir (path : String)
  | stat (path : String)
  deriving DecidableEq, Repr

/-- How the working-directory block ends: with the process in directory `wd`,
or in `errExit(msg)`. -/
inductive CwdEnd where
  | done (wd : String)
  | errExit (msg : String)
  deriving DecidableEq, Repr

/-- The block `if (!cwd) ...` of `sandbox()`, after the calls `pre`. -/
def chdir_fallback (env : CwdEnv) (pre : List CwdEv) : List CwdEv × CwdEnd :=
  if !env.chdir_root_ok then (pre ++ [CwdEv.chdir "/"], CwdEnd.errExit "chdir")
  else
    match env.homedir with
    | none => (pre ++ [CwdEv.chdir "/"], CwdEnd.done "/")
    | some home =>
      if env.stat_home_ok then
        if !env.chdir_home_ok then
          (pre ++ [CwdEv.chdir "/", CwdEv.stat home, CwdEv.chdir home], CwdEnd.errExit "chdir")
        else
          (pre ++ [CwdEv.chdir "/", CwdEv.stat home, CwdEv.chdir home], CwdEnd.done home)
      else (pre ++ [CwdEv.chdir "/", CwdEv.stat home], CwdEnd.done "/")

/-- The working-directory block of `sandbox()` (from `int cwd = 0;` to the end
of `if (!cwd)`). -/
def resolve_cwd (env : CwdEnv) : List CwdEv × CwdEnd :=
  match env.cwd with
  | some dir =>
    if env.chdir_cwd_ok then ([CwdEv.chdir dir], CwdEnd.done dir)
    else chdir_fallback env [CwdEv.chdir dir]
  | none => chdir_fallback env []

/-- Steps of the part of `sandbox()` from `set_caps()` to the re-application of
the capabilities after the user namespace. -/
inductive Step where
  | set_caps
  | seccomp (c : PrivCall)
  | write_groups_cfg
  | stderr (msg : String)
  | unshare_newuser
  | notify_other
  | close_child_to_parent
  | wait_for_other
  | close_parent_to_child
  deriving DecidableEq, Repr

/-- What the user-namespace part of `sandbox()` meets. -/
structure UsernsEnv where
  /-- Whether `fopen(RUN_GROUPS_CFG, "w")` in `save_nogroups` succeeds. -/
  nogroups_fopen_ok : Bool
  /-- The value returned by `unshare(CLONE_NEWUSER)`. -/
  unshare_rv : Int
  /-- The capability set of a new user namespace. -/
  ns_default : CapSet
  /-- Whether `notify_other` (not in `sandbox.c`) returns: `none` when it does,
  otherwise the code it exits with. -/
  notify_other_exit : Option Int
  /-- Whether the second `wait_for_other` (not in `sandbox.c`) returns: `none`
  when it does, otherwise the code it exits with. -/
  wait_for_other_exit : Option Int

/-- How a part of `sandbox()` ends: it reaches its end with the globals and
the privilege state given, or the process exits. -/
inductive StageEnd where
  | completed (g : Globals) (s : PrivState)
  | exited (code : Int)
  deriving DecidableEq, Repr

/-- The function `save_nogroups()`. -/
def save_nogroups (fopen_ok : Bool) (g : Globals) : List Step × VoidEnd :=
  if g.arg_nogroups = 0 then ([], VoidEnd.returned)
  else if fopen_ok then ([Step.write_groups_cfg], VoidEnd.returned)
  else ([Step.stderr "Error: cannot save nogroups state\n"], VoidEnd.exited 1)

/-- The block `if (arg_noroot) ... unshare(CLONE_NEWUSER) ...`: a failure
clears `arg_noroot`, a success resets the capability set. -/
def unshare_step (env : UsernsEnv) (g : Globals) (s : PrivState) :
    List Step × Globals × PrivState :=
  if g.arg_noroot ≠ 0 then
    if env.unshare_rv = -1 then ([Step.unshare_newuser], { g with arg_noroot := 0 }, s)
    else ([Step.unshare_newuser], g, userns_reset env.ns_default s)
  else ([], g, s)

/-- The second round trip of the handshake and the block
`if (arg_noroot) ... set_caps()` that follows it. -/
def handshake_and_reapply (ops : CapOps) (env : UsernsEnv) (g : Globals) (s : PrivState) :
    List Step × StageEnd :=
  match env.notify_other_exit with
  | some code => ([Step.notify_other], StageEnd.exited code)
  | none =>
    match env.wait_for_other_exit with
    | some code =>
      ([Step.notify_other, Step.close_child_to_parent, Step.wait_for_other],
       StageEnd.exited code)
    | none =>
      if g.arg_noroot ≠ 0 then
        ([Step.notify_other, Step.close_child_to_parent, Step.wait_for_other,
          Step.close_parent_to_child, Step.set_caps],
         StageEnd.completed g (set_caps ops g s))
      else
        ([Step.notify_other, Step.close_child_to_parent, Step.wait_for_other,
          Step.close_parent_to_child],
         StageEnd.completed g s)

/-- The part of `sandbox()` from `save_nogroups()` to the second `set_caps()`. -/
def userns_stage (ops : CapOps) (env : UsernsEnv) (g : Globals) (s : PrivState) :
    List Step × StageEnd :=
  match save_nogroups env.nogroups_fopen_ok g with
  | (t1, VoidEnd.exited code) => (t1, StageEnd.exited code)
  | (t1, VoidEnd.returned) =>
    let u := unshare_step env g s
    let h := handshake_and_reapply ops env u.2.1 u.2.2
    (t1 ++ u.1 ++ h.1, h.2)

/-- The part of `sandbox()` from the first `set_caps()` to the second one.
The resource limits, the cpu affinity and the cgroup record between them are
left out: they touch none of the state modelled here. -/
def security_stage (ops : CapOps) (env : UsernsEnv) (g : Globals) (s : PrivState) :
    List Step × StageEnd :=
  let r := userns_stage ops env g (set_caps ops g s)
  (Step.set_caps :: (seccomp_stage g).map Step.seccomp ++ r.1, r.2)

/-! ## Concrete inputs used to evaluate the definitions -/

/-- A file system with a non-executable `/a/prog` and an executable `/b/prog`. -/
def fs_ab : FsOracle where
  stat_ok := fun f => f == "/a/prog" || f == "/b/prog"
  access_ok := fun f => f == "/b/prog"

/-- A configuration with a capability keep-list (capabilities 1 and 5), seccomp
enabled with both a keep and a drop list. -/
def globals_keep : Globals where
  arg_caps_drop_all := 0
  arg_caps_drop := 0
  arg_caps_keep := 1
  arg_caps_default_filter := 0
  arg_caps_list := some [1, 5]
  arg_seccomp := 1
  enforce_seccomp := 0
  seccomp_list_drop := some "mount"
  seccomp_list_keep := some "read,write"
  protocol := none
  arg_memory_deny_write_execute := 0
  arg_nogroups := 0
  arg_noroot := 0

/-- A conversion for the entries of a process table: the leading decimal
digits of the name, if there are any. -/
def scan_decimal (s : String) : Option Nat :=
  let ds := s.data.takeWhile Char.isDigit
  if ds.isEmpty then none
  else some (ds.foldl (fun n c => 10 * n + (c.toNat - 48)) 0)

/-- An environment without timeout in which the first `waitpid` reaps process 2
with status 768 (exit status 3) and `/proc` then lists only process 1 among
its numeric entries. -/
def env_only_init : MonEnv where
  timeout := 0
  command_name := "bash"
  waitpid := fun _ => { rv := 2, status := some 768 }
  opendir := fun _ => some ["self", "1", "cpuinfo"]
  sscanf_u := scan_decimal
  pid_proc_comm := fun _ _ => none

/-- An environment whose process table lists process 3 before process 2. -/
def env_unsorted : MonEnv where
  timeout := 0
  command_name := "bash"
  waitpid := fun _ => { rv := 4, status := some 0 }
  opendir := fun _ => some ["1", "3", "2"]
  sscanf_u := scan_decimal
  pid_proc_comm := fun _ _ => none

/-- An environment for the target `dillo` (process 4, reaped by the first
`waitpid`): the table then lists process 1, the helper `dpid` (process 5) and
an unrelated process 7. -/
def env_dillo : MonEnv where
  timeout := 0
  command_name := "dillo"
  waitpid := fun _ => { rv := 4, status := some 0 }
  opendir := fun _ => some ["1", "5", "7"]
  sscanf_u := scan_decimal
  pid_proc_comm := fun _ pid => if pid = 5 then some "dpid" else some "sh"

/-- An environment with a timeout of 3 seconds whose target (process 2) never
exits: every `waitpid` returns 0 and stores nothing. -/
def env_timeout : MonEnv where
  timeout := 3
  command_name := "sleep"
  waitpid := fun _ => { rv := 0, status := none }
  opendir := fun _ => some ["1", "2"]
  sscanf_u := scan_decimal
  pid_proc_comm := fun _ _ => none

/-- A configuration that asks for a user namespace, with the default
capability filter. -/
def globals_noroot : Globals where
  arg_caps_drop_all := 0
  arg_caps_drop := 0
  arg_caps_keep := 0
  arg_caps_default_filter := 1
  arg_caps_list := none
  arg_seccomp := 1
  enforce_seccomp := 0
  seccomp_list_drop := none
  seccomp_list_keep := none
  protocol := some "unix,inet"
  arg_memory_deny_write_execute := 1
  arg_nogroups := 0
  arg_noroot := 1

/-- An environment in which the user namespace is created. -/
def env_userns_ok : UsernsEnv where
  nogroups_fopen_ok := true
  unshare_rv := 0
  ns_default := [0, 1, 2, 3]
  notify_other_exit := none
  wait_for_other_exit := none

/-- An environment in which the creation of the user namespace fails. -/
def env_userns_denied : UsernsEnv where
  nogroups_fopen_ok := true
  unshare_rv := -1
  ns_default := [0, 1, 2, 3]
  notify_other_exit := none
  wait_for_other_exit := none

/-- The configuration `globals_keep` with a protocol filter and the memory
write+execute filter in addition. -/
def globals_all_filters : Globals :=
  { globals_keep with protocol := some "unix", arg_memory_deny_write_execute := 1 }

/-- A working-directory environment in which `cfg.cwd` can be entered. -/
def cwd_env_ok : CwdEnv where
  cwd := some "/work"
  homedir := some "/home/u"
  chdir_cwd_ok := true
  chdir_root_ok := true
  stat_home_ok := true
  chdir_home_ok := true

/-- A working-directory environment in which `cfg.cwd` cannot be entered and
the home directory does not exist. -/
def cwd_env_fallback : CwdEnv where
  cwd := some "/work"
  homedir := some "/home/u"
  chdir_cwd_ok := false
  chdir_root_ok := true
  stat_home_ok := false
  chdir_home_ok := false

/-! ## Theorems -/

/-! ### Executable lookup -/

/-- The PATH loop stops at the first token whose candidate exists. -/
theorem search_path_first_match (fs : FsOracle) (program : String)
    (pre : List String) (d : String) (post : List String)
    (hpre : ∀ p ∈ pre, fs.stat_ok (candidate p program) = false)
    (hd : fs.stat_ok (candidate d program) = true) :
    search_path fs program (pre ++ d :: post) =
      (if fs.access_ok (candidate d program) then 1 else 0,
       pre.map (fun p => FsEvent.stat (candidate p program)) ++
         [FsEvent.stat (candidate d program), FsEvent.access_x (candidate d program)] ++
         (if fs.access_ok (candidate d program) then []
          else [FsEvent.stderr
            ("Error: execute permission denied for " ++ candidate d program ++ "\n")])) := by
  induction pre with
  | nil =>
    simp only [List.nil_append, search_path, hd, if_true, List.map_nil]
    split <;> rfl
  | cons p ps ih =>
    have hp : fs.stat_ok (candidate p program) = false := hpre p (List.mem_cons_self _ _)
    have ih1 := ih (fun q hq => hpre q (List.mem_cons_of_mem _ hq))
    show search_path fs program (p :: (ps ++ d :: post)) = _
    have hstep : search_path fs program (p :: (ps ++ d :: post)) =
        ((search_path fs program (ps ++ d :: post)).1,
         FsEvent.stat (candidate p program) :: (search_path fs program (ps ++ d :: post)).2) := by
      simp only [search_path, hp]
      rfl
    rw [hstep, ih1]
    simp

/-- C1: for a program name without `/`, `ok_to_run` probes the PATH entries
left to right and stops at the first entry whose candidate exists; nothing
after it is examined.  If that candidate is executable the result is 1; if it
is not, the result is 0 and the permission error is reported, whatever the
later entries hold. -/
theorem ok_to_run_stops_at_first_existing (fs : FsOracle) (path1 program : String)
    (pre : List String) (d : String) (post : List String)
    (hslash : has_slash program = false)
    (htok : strtok path1 = pre ++ d :: post)
    (hpre : ∀ p ∈ pre, fs.stat_ok (candidate p program) = false)
    (hd : fs.stat_ok (candidate d program) = true) :
    ok_to_run fs (some path1) program =
      (if fs.access_ok (candidate d program) then 1 else 0,
       pre.map (fun p => FsEvent.stat (candidate p program)) ++
         [FsEvent.stat (candidate d program), FsEvent.access_x (candidate d program)] ++
         (if fs.access_ok (candidate d program) then []
          else [FsEvent.stderr
            ("Error: execute permission denied for " ++ candidate d program ++ "\n")])) := by
  unfold ok_to_run
  rw [hslash]
  simp only [Bool.false_eq_true, if_false, htok]
  exact search_path_first_match fs program pre d post hpre hd

/-- C1, at PATH="/a:/b" and at PATH="/x:/a:/b", with `prog` absent under `/x`,
present but not executable under `/a` and executable under `/b`: failure, the
error names `/a/prog`, `/b` is not probed. -/
theorem ok_to_run_stops_at_first_existing_witness :
    ok_to_run fs_ab (some "/a:/b") "prog" =
      (0, [FsEvent.stat "/a/prog", FsEvent.access_x "/a/prog",
           FsEvent.stderr "Error: execute permission denied for /a/prog\n"]) ∧
    ok_to_run fs_ab (some "/x:/a:/b") "prog" =
      (0, [FsEvent.stat "/x/prog", FsEvent.stat "/a/prog", FsEvent.access_x "/a/prog",
           FsEvent.stderr "Error: execute permission denied for /a/prog\n"]) :=
  ⟨ok_to_run_stops_at_first_existing fs_ab "/a:/b" "prog" [] "/a" ["/b"]
    (by decide) (by decide) (by decide) (by decide),
   ok_to_run_stops_at_first_existing fs_ab "/x:/a:/b" "prog" ["/x"] "/a" ["/b"]
    (by decide) (by decide) (by decide) (by decide)⟩

/-! ### Capability policy -/

/-- The capability set after `set_caps` depends on the capability set before
it only, not on the record of calls. -/
theorem set_caps_caps_congr (ops : CapOps) (g : Globals) (s t : PrivState)
    (h : s.caps = t.caps) : (set_caps ops g s).caps = (set_caps ops g t).caps := by
  unfold set_caps set_caps_policy PrivState.call
  split_ifs <;> simp [h]

/-- C2: in `set_caps`, for every value of the four capability flags, at most
one policy operation is applied, and `caps_drop_dac_override` is called exactly
when `arg_caps_keep` is 0, as the last call, after the policy operation. -/
theorem set_caps_dac_override_unless_keep (ops : CapOps) (g : Globals) (s : PrivState) :
    ∃ policy : List PrivCall,
      policy.length ≤ 1 ∧ PrivCall.caps_drop_dac_override ∉ policy ∧
      (set_caps_policy ops g s).calls = s.calls ++ policy ∧
      (set_caps ops g s).calls =
        s.calls ++ policy ++
          (if g.arg_caps_keep = 0 then [PrivCall.caps_drop_dac_override] else []) := by
  refine ⟨if g.arg_caps_drop_all ≠ 0 then [PrivCall.caps_drop_all]
    else if g.arg_caps_drop ≠ 0 then [PrivCall.caps_drop_list g.arg_caps_list]
    else if g.arg_caps_keep ≠ 0 then [PrivCall.caps_keep_list g.arg_caps_list]
    else if g.arg_caps_default_filter ≠ 0 then [PrivCall.caps_default_filter]
    else [], ?_, ?_, ?_, ?_⟩
  · split_ifs <;> simp
  · split_ifs <;> simp
  · simp only [set_caps_policy, PrivState.call]
    split_ifs <;> simp
  · simp only [set_caps, set_caps_policy, PrivState.call]
    split_ifs <;> simp

/-- With the set-operation helpers, `set_caps` restricts the capability set to
the capabilities a predicate keeps; the predicate depends on the configuration
only, not on the set. -/
theorem set_caps_spec_filter (default_drop : List Nat) (g : Globals) :
    ∃ keep : Nat → Bool, ∀ x : PrivState,
      (set_caps (specCapOps default_drop) g x).caps = x.caps.filter keep := by
  refine ⟨fun c =>
    (if g.arg_caps_keep = 0 then c != CAP_DAC_OVERRIDE else true) &&
    (if g.arg_caps_drop_all ≠ 0 then false
     else if g.arg_caps_drop ≠ 0 then !(g.arg_caps_list.getD []).contains c
     else if g.arg_caps_keep ≠ 0 then (g.arg_caps_list.getD []).contains c
     else if g.arg_caps_default_filter ≠ 0 then !default_drop.contains c
     else true), fun x => ?_⟩
  simp only [set_caps, set_caps_policy, PrivState.call, specCapOps]
  split_ifs <;> simp_all [List.filter_filter]

/-- C3: with drop-all, drop-list, keep-list, default-filter and the drop of
the override capability as set operations, `set_caps` is, for every flag
configuration and capability list, the restriction of the capability set to
the capabilities a configuration-only predicate keeps.  Hence it is idempotent
(a second application changes nothing), and `set_caps`, then the reset of the
capability set to the namespace default, then `set_caps` again leaves the same
set as one `set_caps` applied to the namespace default: a capability is held
afterwards exactly when the namespace default holds it and the policy keeps
it.  When the process held the namespace default before the first application,
the re-application restores exactly the set the first application left. -/
theorem set_caps_reapplied_after_reset (default_drop : List Nat) (g : Globals)
    (s : PrivState) (ns_default : CapSet) :
    (set_caps (specCapOps default_drop) g
        (userns_reset ns_default (set_caps (specCapOps default_drop) g s))).caps =
      (set_caps (specCapOps default_drop) g { caps := ns_default, calls := [] }).caps ∧
    (set_caps (specCapOps default_drop) g (set_caps (specCapOps default_drop) g s)).caps =
      (set_caps (specCapOps default_drop) g s).caps ∧
    (∀ c, c ∈ (set_caps (specCapOps default_drop) g
          (userns_reset ns_default (set_caps (specCapOps default_drop) g s))).caps ↔
        (c ∈ ns_default ∧
          c ∈ (set_caps (specCapOps default_drop) g { caps := [c], calls := [] }).caps)) ∧
    (∀ c, c ∈ (set_caps (specCapOps default_drop) g s).caps → c ∈ s.caps) ∧
    (g.arg_caps_keep = 0 →
      CAP_DAC_OVERRIDE ∉ (set_caps (specCapOps default_drop) g
        (userns_reset ns_default (set_caps (specCapOps default_drop) g s))).caps) ∧
    (s.caps = ns_default →
      (set_caps (specCapOps default_drop) g
          (userns_reset ns_default (set_caps (specCapOps default_drop) g s))).caps =
        (set_caps (specCapOps default_drop) g s).caps) := by
  obtain ⟨keep, hkeep⟩ := set_caps_spec_filter default_drop g
  have hreset : (userns_reset ns_default (set_caps (specCapOps default_drop) g s)).caps =
      ns_default := rfl
  refine ⟨?_, ?_, ?_, ?_, ?_, ?_⟩
  · rw [hkeep, hkeep, hreset]
  · rw [hkeep, hkeep, List.filter_filter]
    congr 1
    funext c
    simp
  · intro c
    rw [hkeep, hkeep, hreset, List.mem_filter]
    simp
  · intro c hc
    rw [hkeep] at hc
    exact (List.mem_filter.mp hc).1
  · intro h0 hmem
    have hdac : (set_caps (specCapOps default_drop) g
        (userns_reset ns_default (set_caps (specCapOps default_drop) g s))).caps =
        ((set_caps_policy (specCapOps default_drop) g
          (userns_reset ns_default (set_caps (specCapOps default_drop) g s))).caps).filter
            (fun c => c != CAP_DAC_OVERRIDE) := by
      simp only [set_caps, h0, if_true, PrivState.call, specCapOps]
    rw [hdac, List.mem_filter] at hmem
    simp at hmem
  · intro hs
    rw [hkeep, hkeep, hreset, hs]

/-- C3 at the default filter (dropping capability 2) with the namespace default
0, 1, 2, 3: re-application after the reset restores the set 0, 3 that the
first application left. -/
theorem set_caps_reapplied_after_reset_witness :
    (set_caps (specCapOps [2]) globals_noroot
        (userns_reset [0, 1, 2, 3]
          (set_caps (specCapOps [2]) globals_noroot ⟨[0, 1, 2, 3], []⟩))).caps = [0, 3] ∧
    CAP_DAC_OVERRIDE ∉ (set_caps (specCapOps [2]) globals_noroot
        (userns_reset [0, 1, 2, 3]
          (set_caps (specCapOps [2]) globals_noroot ⟨[0, 1, 2, 3], []⟩))).caps :=
  ⟨((set_caps_reapplied_after_reset [2] globals_noroot ⟨[0, 1, 2, 3], []⟩
      [0, 1, 2, 3]).2.2.2.2.2 rfl).trans (by decide),
   (set_caps_reapplied_after_reset [2] globals_noroot ⟨[0, 1, 2, 3], []⟩
      [0, 1, 2, 3]).2.2.2.2.1 (by decide)⟩

/-! ### The rescan of the process table -/

/-- The conversion to `int` yields 1 only for the `unsigned` 1. -/
theorem int_of_unsigned_ne_one (n : Nat) (h : n % 4294967296 ≠ 1) : int_of_unsigned n ≠ 1 := by
  unfold int_of_unsigned
  split_ifs <;> omega

/-- The conversion to `int` is the identity below 2^31. -/
theorem int_of_unsigned_small (n : Nat) (h : n < 2147483648) : int_of_unsigned n = (n : Int) := by
  unfold int_of_unsigned
  have h1 : n % 4294967296 = n := Nat.mod_eq_of_lt (by omega)
  rw [h1, if_pos h]

/-- The rescan in terms of the converted process ids: the first id other than
1 decides, the entries after it are not looked at. -/
theorem rescan_eq (env : MonEnv) (scan : Nat) (entries : List String) :
    rescan env scan entries =
      match (listed_pids env entries).filter (fun p => p ≠ 1) with
      | [] => 0
      | p :: _ => if is_dpid env scan p then 0 else int_of_unsigned p := by
  induction entries with
  | nil => simp [rescan, listed_pids]
  | cons e es ih =>
    unfold rescan
    cases hs : env.sscanf_u e with
    | none =>
      have hl : listed_pids env (e :: es) = listed_pids env es := by
        simp [listed_pids, List.filterMap_cons, hs]
      simp only [hl]
      exact ih
    | some p =>
      have hl : listed_pids env (e :: es) = (p % 4294967296) :: listed_pids env es := by
        simp [listed_pids, List.filterMap_cons, hs]
      simp only [hl]
      by_cases h1 : p % 4294967296 = 1
      · simp only [h1, if_true]
        rw [ih]
        simp [List.filter_cons]
      · simp only [h1, if_false]
        simp only [List.filter_cons, ne_eq, h1, not_false_eq_true, decide_True, if_true]

/-- What follows the wait loop keeps the wait status and sets `monitored_pid`
to the result of the rescan of the listing it opened. -/
theorem after_wait_opened (env : MonEnv) (rv : Int) (st st2 : MonState)
    (entries : List String) (scan : Nat)
    (h : after_wait env rv st = OpenEnd.opened entries scan st2) :
    st2.status = st.status ∧ st2.monitored_pid = rescan env scan entries := by
  unfold after_wait at h
  by_cases hrv : rv = -1
  · simp only [hrv, if_true] at h
    unfold open_proc at h
    cases h1 : env.opendir st.nopen with
    | some es =>
      simp only [h1] at h
      injection h with he hs hst
      subst he; subst hs; subst hst
      exact ⟨rfl, rfl⟩
    | none =>
      simp only [h1] at h
      cases h2 : env.opendir (st.nopen + 1) with
      | some es =>
        simp only [h2] at h
        injection h with he hs hst
        subst he; subst hs; subst hst
        exact ⟨rfl, rfl⟩
      | none => simp [h2] at h
  · simp only [hrv, if_false] at h
    unfold open_proc at h
    cases h1 : env.opendir st.nopen with
    | some es =>
      simp only [h1] at h
      injection h with he hs hst
      subst he; subst hs; subst hst
      exact ⟨rfl, rfl⟩
    | none =>
      simp only [h1] at h
      cases h2 : env.opendir (st.nopen + 1) with
      | some es =>
        simp only [h2] at h
        injection h with he hs hst
        subst he; subst hs; subst hst
        exact ⟨rfl, rfl⟩
      | none => simp [h2] at h

/-- A pass of `while (monitored_pid)` whose rescan selects nothing is the last:
the function returns the status the wait loop left. -/
theorem monitor_loop_last_pass (env : MonEnv) (options : Int) (fuel : Nat)
    (st st1 st2 : MonState) (rv : Int) (entries : List String) (scan : Nat)
    (hmon : st.monitored_pid ≠ 0)
    (hwait : wait_loop env options fuel { st with trace := st.trace ++ [Ev.usleep 20000] } =
      some (WaitEnd.left rv st1))
    (hopen : after_wait env rv st1 = OpenEnd.opened entries scan st2)
    (hnone : rescan env scan entries = 0) :
    monitor_loop env options (fuel + 1) st = some (Outcome.returned st1.status, st2.trace) := by
  obtain ⟨hstatus, hpid⟩ := after_wait_opened env rv st1 st2 entries scan hopen
  have hfuel : fuel ≠ 0 := by
    intro h0
    rw [h0] at hwait
    simp [wait_loop] at hwait
  obtain ⟨f, hf⟩ := Nat.exists_eq_succ_of_ne_zero hfuel
  have h2 : monitor_loop env options fuel st2 = some (Outcome.returned st2.status, st2.trace) := by
    rw [hf]
    unfold monitor_loop
    rw [if_pos (by rw [hpid, hnone])]
  unfold monitor_loop
  rw [if_neg hmon]
  simp only [hwait, hopen]
  rw [h2, hstatus]

/-- C4: for every listing the rescan never selects process id 1; and when 1 is
the only id converted from the entries, it selects nothing (0), the loop
`while (monitored_pid)` is left after this pass and `monitor_application`
returns the status last stored by `waitpid`. -/
theorem rescan_never_selects_init (env : MonEnv) (scan : Nat) (entries : List String) :
    rescan env scan entries ≠ 1 ∧
    ((∀ p ∈ listed_pids env entries, p = 1) →
      rescan env scan entries = 0 ∧
      ∀ (options : Int) (fuel : Nat) (st st1 st2 : MonState) (rv : Int),
        st.monitored_pid ≠ 0 →
        wait_loop env options fuel { st with trace := st.trace ++ [Ev.usleep 20000] } =
          some (WaitEnd.left rv st1) →
        after_wait env rv st1 = OpenEnd.opened entries scan st2 →
        st2.monitored_pid = 0 ∧
        monitor_loop env options (fuel + 1) st =
          some (Outcome.returned st1.status, st2.trace)) := by
  have hmem : ∀ p ∈ (listed_pids env entries).filter (fun p => p ≠ 1),
      p % 4294967296 = p ∧ p ≠ 1 := by
    intro p hp
    rw [List.mem_filter] at hp
    obtain ⟨hp1, hp2⟩ := hp
    refine ⟨?_, by simpa using hp2⟩
    unfold listed_pids at hp1
    rw [List.mem_filterMap] at hp1
    obtain ⟨e, _, he⟩ := hp1
    cases hs : env.sscanf_u e with
    | none => simp [hs] at he
    | some q =>
      simp only [hs, Option.map_some', Option.some.injEq] at he
      rw [← he]
      exact Nat.mod_mod _ _
  refine ⟨?_, fun honly => ?_⟩
  · rw [rescan_eq]
    cases hf : (listed_pids env entries).filter (fun p => p ≠ 1) with
    | nil => simp
    | cons p rest =>
      have hp := hmem p (by rw [hf]; exact List.mem_cons_self _ _)
      simp only
      split_ifs
      · decide
      · exact int_of_unsigned_ne_one p (by rw [hp.1]; exact hp.2)
  · have h0 : rescan env scan entries = 0 := by
      rw [rescan_eq]
      have hnil : (listed_pids env entries).filter (fun p => p ≠ 1) = [] := by
        rw [List.filter_eq_nil_iff]
        intro p hp
        simp [honly p hp]
      rw [hnil]
    refine ⟨h0, ?_⟩
    intro options fuel st st1 st2 rv hmon hwait hopen
    refine ⟨?_, monitor_loop_last_pass env options fuel st st1 st2 rv entries scan
      hmon hwait hopen h0⟩
    rw [(after_wait_opened env rv st1 st2 entries scan hopen).2, h0]

/-- C4 at a table that lists only process 1 among its numeric entries: the
supervisor returns the status 768 stored by `waitpid`. -/
theorem rescan_never_selects_init_witness :
    rescan env_only_init 0 ["self", "1", "cpuinfo"] = 0 ∧
    monitor_application env_only_init 2 2 =
      some (Outcome.returned 768, [Ev.usleep 20000, Ev.waitpid 0]) :=
  have h := (rescan_never_selects_init env_only_init 0 ["self", "1", "cpuinfo"]).2 (by decide)
  ⟨h.1, (h.2 0 1 (monitor_init env_only_init 2)
    { monitored_pid := 2, status := 768, timeout := 0, nwait := 1, nopen := 0,
      trace := [Ev.usleep 20000, Ev.waitpid 0] }
    { monitored_pid := 0, status := 768, timeout := 0, nwait := 1, nopen := 1,
      trace := [Ev.usleep 20000, Ev.waitpid 0] } 2 (by decide) rfl rfl).2⟩

/-- C5, as stated, fails: with the table listing process 3 before process 2
the rescan selects 3, which is not the lowest listed id other than 1. -/
theorem rescan_lowest_counterexample :
    rescan env_unsorted 0 ["1", "3", "2"] = 3 ∧
    ¬ (∀ q ∈ listed_pids env_unsorted ["1", "3", "2"], q ≠ 1 →
        rescan env_unsorted 0 ["1", "3", "2"] ≤ (q : Int)) := by
  refine ⟨by decide, fun h => ?_⟩
  have h2 := h 2 (by decide) (by decide)
  revert h2
  decide

/-- C5, amended: when the named-application carve-out does not apply, the
rescan selects the first listed process id other than 1, in the order of the
process table (converted to `int`, which changes no id below 2^31); when the
table lists the ids in ascending order, this is the lowest listed id other
than 1. -/
theorem rescan_selects_first_listed (env : MonEnv) (scan : Nat) (entries : List String)
    (p : Nat) (rest : List Nat)
    (hno : env.command_name ≠ "dillo" ∨ ∀ q, env.pid_proc_comm scan q ≠ some "dpid")
    (hfirst : (listed_pids env entries).filter (fun q => q ≠ 1) = p :: rest) :
    rescan env scan entries = int_of_unsigned p ∧
    (p < 2147483648 → rescan env scan entries = (p : Int)) ∧
    ((listed_pids env entries).Pairwise (fun a b => a ≤ b) →
      ∀ q ∈ listed_pids env entries, q ≠ 1 → p ≤ q) := by
  have hnd : is_dpid env scan p = false := by
    unfold is_dpid
    rcases hno with h | h
    · simp [h]
    · simp [h p]
  have hres : rescan env scan entries = int_of_unsigned p := by
    rw [rescan_eq, hfirst]
    simp [hnd]
  refine ⟨hres, fun hp => ?_, fun hsorted q hq hq1 => ?_⟩
  · rw [hres, int_of_unsigned_small p hp]
  · have hsf : ((listed_pids env entries).filter (fun q => q ≠ 1)).Pairwise
        (fun a b => a ≤ b) := List.Pairwise.filter _ hsorted
    rw [hfirst, List.pairwise_cons] at hsf
    have hqmem : q ∈ (listed_pids env entries).filter (fun q => q ≠ 1) := by
      rw [List.mem_filter]
      exact ⟨hq, by simpa using hq1⟩
    rw [hfirst, List.mem_cons] at hqmem
    rcases hqmem with h | h
    · omega
    · exact hsf.1 q h

/-- C5, amended, at the ascending table 1, 2, 3: process 2 is selected, and it
is not above the listed process 3. -/
theorem rescan_selects_first_listed_witness :
    rescan env_unsorted 0 ["1", "2", "3"] = 2 ∧ (2 : Nat) ≤ 3 :=
  have h := rescan_selects_first_listed env_unsorted 0 ["1", "2", "3"] 2 [3]
    (Or.inl (by decide)) (by decide)
  ⟨h.2.1 (by decide), h.2.2 (by decide) 3 (by decide) (by decide)⟩

/-- C6, as stated, fails: for the target `dillo`, with the table listing the
helper `dpid` (process 5) before the eligible process 7, the rescan selects
nothing instead of 7, and `monitor_application` returns: the session ends. -/
theorem rescan_dpid_counterexample :
    7 ∈ listed_pids env_dillo ["1", "5", "7"] ∧
    is_dpid env_dillo 0 7 = false ∧
    rescan env_dillo 0 ["1", "5", "7"] = 0 ∧
    monitor_application env_dillo 2 4 =
      some (Outcome.returned 0, [Ev.usleep 20000, Ev.waitpid 0]) := by
  decide

/-- C6, amended: when the target command name is `dillo` and the first listed
process id other than 1 has the command name `dpid`, the scan stops at that
entry and selects nothing, whatever ids follow it: the monitored id is 0, the
loop is left after this pass and `monitor_application` returns. -/
theorem rescan_stops_at_dpid (env : MonEnv) (scan : Nat) (entries : List String)
    (p : Nat) (rest : List Nat)
    (hdillo : env.command_name = "dillo")
    (hfirst : (listed_pids env entries).filter (fun q => q ≠ 1) = p :: rest)
    (hdpid : env.pid_proc_comm scan p = some "dpid") :
    rescan env scan entries = 0 ∧
    ∀ (options : Int) (fuel : Nat) (st st1 st2 : MonState) (rv : Int),
      st.monitored_pid ≠ 0 →
      wait_loop env options fuel { st with trace := st.trace ++ [Ev.usleep 20000] } =
        some (WaitEnd.left rv st1) →
      after_wait env rv st1 = OpenEnd.opened entries scan st2 →
      monitor_loop env options (fuel + 1) st =
        some (Outcome.returned st1.status, st2.trace) := by
  have h0 : rescan env scan entries = 0 := by
    rw [rescan_eq, hfirst]
    simp [is_dpid, hdillo, hdpid]
  exact ⟨h0, fun options fuel st st1 st2 rv hmon hwait hopen =>
    monitor_loop_last_pass env options fuel st st1 st2 rv entries scan hmon hwait hopen h0⟩

/-- C6, amended, at the table 1, 5 (`dpid`), 7 for the target `dillo`. -/
theorem rescan_stops_at_dpid_witness :
    rescan env_dillo 0 ["1", "5", "7"] = 0 :=
  (rescan_stops_at_dpid env_dillo 0 ["1", "5", "7"] 5 [7] rfl (by decide) rfl).1

/-! ### Timeout -/

/-- With `WNOHANG` set and a `waitpid` that never fails and never returns the
monitored process, the wait loop counts the remaining timeout down by one per
call, sleeps one second after each call but the last, and at the call that
brings the timeout to 0 broadcasts SIGTERM and exits. -/
theorem wait_loop_times_out (env : MonEnv) (options : Int) (hopt : options ≠ 0) (k : Nat) :
    ∀ (fuel : Nat) (st : MonState),
      st.timeout = k + 1 → k + 1 < 4294967296 → k + 1 ≤ fuel →
      (∀ i, (env.waitpid i).rv ≠ -1 ∧ (env.waitpid i).rv ≠ st.monitored_pid) →
      wait_loop env options fuel st =
        some (WaitEnd.exited 1
          (st.trace ++ (List.replicate k [Ev.waitpid options, Ev.sleep 1]).flatten ++
            [Ev.waitpid options, Ev.kill (-1) SIGTERM, Ev.flush_stdin, Ev.sleep 1])) := by
  induction k with
  | zero =>
    intro fuel st ht _ hfuel hnever
    obtain ⟨f, hf⟩ := Nat.exists_eq_succ_of_ne_zero (show fuel ≠ 0 by omega)
    rw [hf]
    unfold wait_loop
    simp only [(hnever st.nwait).1, if_false, hopt, ne_eq, not_false_eq_true, if_true, ht]
    simp
  | succ k ih =>
    intro fuel st ht hlt hfuel hnever
    obtain ⟨f, hf⟩ := Nat.exists_eq_succ_of_ne_zero (show fuel ≠ 0 by omega)
    rw [hf]
    unfold wait_loop
    have ht2 : (k + 1 + 1 + 4294967296 - 1) % 4294967296 = k + 1 := by
      rw [show k + 1 + 1 + 4294967296 - 1 = (k + 1) + 4294967296 by omega,
        Nat.add_mod_right, Nat.mod_eq_of_lt (by omega)]
    simp only [(hnever st.nwait).1, (hnever st.nwait).2, if_false, hopt, ne_eq,
      not_false_eq_true, if_true, ht, ht2, Nat.succ_ne_zero]
    have key := ih f
      { monitored_pid := st.monitored_pid,
        status := (env.waitpid st.nwait).status.getD st.status,
        timeout := k + 1, nwait := st.nwait + 1, nopen := st.nopen,
        trace := st.trace ++ [Ev.waitpid options] ++ [Ev.sleep 1] } rfl (by omega) (by omega)
      hnever
    exact key.trans (by simp [List.replicate_succ])

/-- The time slept in `n` rounds of poll and one-second sleep. -/
theorem elapsed_usec_ticks (options : Int) (n : Nat) :
    elapsed_usec (List.replicate n [Ev.waitpid options, Ev.sleep 1]).flatten = 1000000 * n := by
  induction n with
  | zero => rfl
  | succ n ih =>
    have hstep : (List.replicate (n + 1) [Ev.waitpid options, Ev.sleep 1]).flatten =
        Ev.waitpid options :: Ev.sleep 1 ::
          (List.replicate n [Ev.waitpid options, Ev.sleep 1]).flatten := rfl
    rw [hstep]
    simp only [elapsed_usec, ih]
    omega

/-- C7: with a timeout `T ≥ 1` and a target that never exits (`waitpid` never
fails and never returns the target), `monitor_application` polls `T` times
with `WNOHANG`, sleeping one second after each poll but the last; at the
`T`-th poll it broadcasts SIGTERM to the process group, flushes standard
input, sleeps one second and exits with code 1.  The sleeps before the SIGTERM
add up to `T - 1` seconds and 20 milliseconds, which is at most `T` seconds. -/
theorem monitor_application_timeout (env : MonEnv) (app_pid : Int) (T fuel : Nat)
    (hT : 1 ≤ T) (hT32 : T < 4294967296) (htimeout : env.timeout = T)
    (hpid : app_pid ≠ 0)
    (hnever : ∀ i, (env.waitpid i).rv ≠ -1 ∧ (env.waitpid i).rv ≠ app_pid)
    (hfuel : T + 1 ≤ fuel) :
    monitor_application env fuel app_pid =
      some (Outcome.exited 1,
        Ev.usleep 20000 ::
          (List.replicate (T - 1) [Ev.waitpid WNOHANG, Ev.sleep 1]).flatten ++
          [Ev.waitpid WNOHANG, Ev.kill (-1) SIGTERM, Ev.flush_stdin, Ev.sleep 1]) ∧
    elapsed_usec (Ev.usleep 20000 ::
      (List.replicate (T - 1) [Ev.waitpid WNOHANG, Ev.sleep 1]).flatten ++
        [Ev.waitpid WNOHANG]) = 20000 + 1000000 * (T - 1) ∧
    20000 + 1000000 * (T - 1) ≤ 1000000 * T := by
  have hel2 : elapsed_usec (Ev.usleep 20000 ::
      (List.replicate (T - 1) [Ev.waitpid WNOHANG, Ev.sleep 1]).flatten ++
        [Ev.waitpid WNOHANG]) = 20000 + 1000000 * (T - 1) := by
    have happ : ∀ l : List Ev, elapsed_usec (l ++ [Ev.waitpid WNOHANG]) = elapsed_usec l := by
      intro l
      induction l with
      | nil => rfl
      | cons e es ih => cases e <;> simp [elapsed_usec, ih]
    rw [show Ev.usleep 20000 ::
        (List.replicate (T - 1) [Ev.waitpid WNOHANG, Ev.sleep 1]).flatten ++ [Ev.waitpid WNOHANG] =
      (Ev.usleep 20000 :: (List.replicate (T - 1) [Ev.waitpid WNOHANG, Ev.sleep 1]).flatten) ++
        [Ev.waitpid WNOHANG] from rfl, happ]
    simp only [elapsed_usec, elapsed_usec_ticks]
  refine ⟨?_, hel2, by omega⟩
  obtain ⟨k, hk⟩ := Nat.exists_eq_succ_of_ne_zero (show T ≠ 0 by omega)
  obtain ⟨f, hf⟩ := Nat.exists_eq_succ_of_ne_zero (show fuel ≠ 0 by omega)
  have hT0 : env.timeout ≠ 0 := by omega
  have hopt : monitor_options env = WNOHANG := by
    unfold monitor_options
    rw [if_pos hT0]
  unfold monitor_application
  rw [hf, hopt]
  unfold monitor_loop
  have hmon : (monitor_init env app_pid).monitored_pid = app_pid := rfl
  rw [if_neg (by rw [hmon]; exact hpid)]
  rw [wait_loop_times_out env WNOHANG (by decide) k f _
    (by simp [monitor_init, hT0, htimeout, hk]) (by omega) (by omega) hnever]
  simp [monitor_init, hk]

/-- C7 at a timeout of 3 seconds: SIGTERM at the third poll, after two
one-second sleeps. -/
theorem monitor_application_timeout_witness :
    monitor_application env_timeout 4 2 =
      some (Outcome.exited 1,
        [Ev.usleep 20000, Ev.waitpid 1, Ev.sleep 1, Ev.waitpid 1, Ev.sleep 1,
         Ev.waitpid 1, Ev.kill (-1) SIGTERM, Ev.flush_stdin, Ev.sleep 1]) :=
  (monitor_application_timeout env_timeout 2 3 4 (by decide) (by decide) rfl (by decide)
    (fun _ => ⟨by simp [env_timeout], by simp [env_timeout]⟩) (by decide)).1

/-! ### Shutdown handler -/

/-- The polling loop of the handler only sleeps, one second at a time, at most
`monsec` times. -/
theorem handler_poll_eq_replicate (probe : Nat → Probe) (monsec i : Nat) :
    handler_poll probe monsec i =
      List.replicate ((handler_poll probe monsec i).length) (Ev.sleep 1) ∧
    (handler_poll probe monsec i).length ≤ monsec := by
  induction monsec generalizing i with
  | zero => simp [handler_poll]
  | succ m ih =>
    unfold handler_poll
    cases probe i with
    | fopen_failed => simp
    | read_nothing => simp
    | read_byte =>
      obtain ⟨h1, h2⟩ := ih (i + 1)
      refine ⟨?_, ?_⟩
      · simp only [List.length_cons, List.replicate_succ]
        rw [← h1]
      · simp only [List.length_cons]
        omega

/-- While every probe finds the process, the loop sleeps `monsec` times. -/
theorem handler_poll_all_live (probe : Nat → Probe) (monsec i : Nat)
    (h : ∀ j, j < monsec → probe (i + j) = Probe.read_byte) :
    (handler_poll probe monsec i).length = monsec := by
  induction monsec generalizing i with
  | zero => simp [handler_poll]
  | succ m ih =>
    unfold handler_poll
    have h0 : probe i = Probe.read_byte := by simpa using h 0 (Nat.succ_pos m)
    rw [h0]
    simp only [List.length_cons]
    rw [ih (i + 1) (fun j hj => by
      have := h (j + 1) (by omega)
      rwa [show i + (j + 1) = i + 1 + j by omega] at this)]

/-- The loop stops at the first probe that does not find the process. -/
theorem handler_poll_first_gone (probe : Nat → Probe) (monsec i k : Nat)
    (hk : k < monsec)
    (hlive : ∀ j, j < k → probe (i + j) = Probe.read_byte)
    (hgone : probe (i + k) ≠ Probe.read_byte) :
    (handler_poll probe monsec i).length = k := by
  induction monsec generalizing i k with
  | zero => omega
  | succ m ih =>
    unfold handler_poll
    cases k with
    | zero =>
      have hg : probe i ≠ Probe.read_byte := by simpa using hgone
      cases hp : probe i with
      | fopen_failed => simp
      | read_nothing => simp
      | read_byte => exact absurd hp hg
    | succ k =>
      have h0 : probe i = Probe.read_byte := by simpa using hlive 0 (Nat.succ_pos k)
      rw [h0]
      simp only [List.length_cons]
      rw [ih (i + 1) k (by omega)
        (fun j hj => by
          have := hlive (j + 1) (by omega)
          rwa [show i + (j + 1) = i + 1 + j by omega] at this)
        (by rwa [show i + (k + 1) = i + 1 + k by omega] at hgone)]

/-- C8: `sandbox_handler`, for every signal number and every liveness history:
SIGTERM is broadcast first, then `n` one-second sleeps follow with
`1 ≤ n ≤ 10`, then SIGKILL is broadcast, standard input is flushed and the
process exits with the signal number.  `n = 1` when no process is monitored,
`n = 10` when the monitored process is found by each of the nine probes, and
`n = k + 1` when the probe number `k` (from 0) is the first that does not find
it. -/
theorem sandbox_handler_sequence (probe : Nat → Probe) (monitored_pid sig : Int) :
    (sandbox_handler probe monitored_pid sig).2 = Outcome.exited sig ∧
    (sandbox_handler probe monitored_pid sig).1 =
      Ev.kill (-1) SIGTERM ::
        List.replicate ((sandbox_handler probe monitored_pid sig).1.count (Ev.sleep 1))
          (Ev.sleep 1) ++ [Ev.kill (-1) SIGKILL, Ev.flush_stdin] ∧
    1 ≤ (sandbox_handler probe monitored_pid sig).1.count (Ev.sleep 1) ∧
    (sandbox_handler probe monitored_pid sig).1.count (Ev.sleep 1) ≤ 10 ∧
    (monitored_pid = 0 →
      (sandbox_handler probe monitored_pid sig).1.count (Ev.sleep 1) = 1) ∧
    (monitored_pid ≠ 0 → (∀ j, j < 9 → probe j = Probe.read_byte) →
      (sandbox_handler probe monitored_pid sig).1.count (Ev.sleep 1) = 10) ∧
    (monitored_pid ≠ 0 → ∀ k, k < 9 → (∀ j, j < k → probe j = Probe.read_byte) →
      probe k ≠ Probe.read_byte →
      (sandbox_handler probe monitored_pid sig).1.count (Ev.sleep 1) = k + 1) := by
  obtain ⟨hrep, hlen⟩ := handler_poll_eq_replicate probe 9 0
  have hcount : (sandbox_handler probe monitored_pid sig).1.count (Ev.sleep 1) =
      1 + (if monitored_pid ≠ 0 then (handler_poll probe 9 0).length else 0) := by
    unfold sandbox_handler
    by_cases h : monitored_pid = 0
    · simp [h, SIGTERM, SIGKILL]
    · simp only [ne_eq, h, not_false_eq_true, if_true]
      rw [hrep]
      simp [SIGTERM, SIGKILL]
      omega
  refine ⟨rfl, ?_, ?_, ?_, ?_, ?_, ?_⟩
  · rw [hcount]
    unfold sandbox_handler
    by_cases h : monitored_pid = 0
    · simp [h]
    · simp only [ne_eq, h, not_false_eq_true, if_true]
      conv_lhs => rw [hrep]
      simp [List.replicate_succ, Nat.add_comm 1]
  · rw [hcount]; omega
  · rw [hcount]; split_ifs <;> omega
  · intro h; rw [hcount]; simp [h]
  · intro h hl
    rw [hcount, if_pos h, handler_poll_all_live probe 9 0 (by simpa using hl)]
  · intro h k hk hl hg
    rw [hcount, if_pos h, handler_poll_first_gone probe 9 0 k hk (by simpa using hl)
      (by simpa using hg)]
    omega

/-- C8 at three liveness histories: no monitored process, a process that stays
live, and a process gone at the fourth probe. -/
theorem sandbox_handler_sequence_witness :
    (sandbox_handler (fun _ => Probe.read_byte) 0 15).1.count (Ev.sleep 1) = 1 ∧
    (sandbox_handler (fun _ => Probe.read_byte) 2 15).1.count (Ev.sleep 1) = 10 ∧
    (sandbox_handler (fun j => if j < 3 then Probe.read_byte else Probe.fopen_failed) 2 15).1.count
      (Ev.sleep 1) = 4 :=
  ⟨(sandbox_handler_sequence (fun _ => Probe.read_byte) 0 15).2.2.2.2.1 rfl,
   (sandbox_handler_sequence (fun _ => Probe.read_byte) 2 15).2.2.2.2.2.1 (by decide)
     (fun _ _ => rfl),
   (sandbox_handler_sequence (fun j => if j < 3 then Probe.read_byte else Probe.fopen_failed)
     2 15).2.2.2.2.2.2 (by decide) 3 (by decide)
     (fun j hj => by simp [hj]) (by decide)⟩

/-! ### Exit code -/

/-- The mask/shift of `WEXITSTATUS` as division and remainder. -/
theorem and_ff00_shiftRight (x : Nat) : (x &&& 0xff00) >>> 8 = x / 256 % 256 := by
  have h1 : (0xff00 : Nat) >>> 8 = 2 ^ 8 - 1 := by decide
  have h2 : x / 256 % 256 = (x >>> 8) % 2 ^ 8 := by
    rw [Nat.shiftRight_eq_div_pow]; norm_num
  rw [h2]
  apply Nat.eq_of_testBit_eq
  intro i
  rw [Nat.testBit_shiftRight, Nat.testBit_and, Nat.testBit_mod_two_pow,
    Nat.testBit_shiftRight, ← Nat.testBit_shiftRight (0xff00), h1,
    Nat.testBit_two_pow_sub_one, Bool.and_comm]

/-- The mask of `WIFEXITED` as a remainder. -/
theorem and_7f (x : Nat) : x &&& 0x7f = x % 128 := by
  have h : (0x7f : Nat) = 2 ^ 7 - 1 := by decide
  rw [h, Nat.and_pow_two_sub_one_eq_mod]

/-- C9: the value `sandbox()` returns is the exit status of the target (bits
8..15 of the wait status) when the low 7 bits of the status are zero, and -1,
which is not 0, otherwise. -/
theorem sandbox_exit_code_eq (status : Int) :
    sandbox_exit_code status = (if status % 128 = 0 then status / 256 % 256 else -1) ∧
    (¬ status % 128 = 0 → sandbox_exit_code status ≠ 0) := by
  have key : sandbox_exit_code status =
      (if status % 128 = 0 then status / 256 % 256 else -1) := by
    unfold sandbox_exit_code WIFEXITED WEXITSTATUS
    rw [and_7f, and_ff00_shiftRight]
    unfold bits32
    by_cases h : status % 128 = 0
    · have h1 : (status % 4294967296).toNat % 128 = 0 := by omega
      have h2 : (((status % 4294967296).toNat / 256 % 256 : Nat) : Int) = status / 256 % 256 := by
        omega
      simp [h, h1, h2]
    · have h1 : ¬ (status % 4294967296).toNat % 128 = 0 := by omega
      simp [h, h1]
  refine ⟨key, fun h => ?_⟩
  rw [key, if_neg h]
  decide

/-- C9 at the status of a process killed by signal 9: the result is -1. -/
theorem sandbox_exit_code_eq_witness : sandbox_exit_code 9 ≠ 0 :=
  (sandbox_exit_code_eq 9).2 (by decide)

/-! ### Confinement enforcement -/

/-- C10: after `enforce_filters`, whatever the configuration was, the seccomp
keep and drop lists are gone, seccomp is on, `arg_caps_drop_all` and
`arg_nogroups` are set.  The following `set_caps` calls `caps_drop_all` and
never `caps_keep_list`, so that with a `caps_drop_all` that empties the set and
a `caps_drop_dac_override` that adds nothing the capability set is empty; and
the general filter of the seccomp stage is `seccomp_filter_drop`, installed
once, never `seccomp_filter_keep`. -/
theorem enforce_filters_overrides (ops : CapOps) (g : Globals) (s : PrivState)
    (hall : ∀ c, ops.drop_all c = [])
    (hdac : ops.drop_dac_override [] = []) :
    (enforce_filters g).seccomp_list_keep = none ∧
    (enforce_filters g).seccomp_list_drop = none ∧
    (enforce_filters g).arg_seccomp = 1 ∧
    (enforce_filters g).enforce_seccomp = 1 ∧
    (enforce_filters g).arg_caps_drop_all = 1 ∧
    (enforce_filters g).arg_nogroups = 1 ∧
    (set_caps ops (enforce_filters g) s).calls =
      s.calls ++ PrivCall.caps_drop_all ::
        (if g.arg_caps_keep = 0 then [PrivCall.caps_drop_dac_override] else []) ∧
    (set_caps ops (enforce_filters g) s).caps = [] ∧
    (seccomp_stage (enforce_filters g)).count PrivCall.seccomp_filter_drop = 1 ∧
    PrivCall.seccomp_filter_keep ∉ seccomp_stage (enforce_filters g) := by
  refine ⟨rfl, rfl, rfl, rfl, rfl, rfl, ?_, ?_, ?_, ?_⟩
  · simp only [set_caps, set_caps_policy, PrivState.call, enforce_filters]
    split_ifs <;> simp_all
  · simp only [set_caps, set_caps_policy, PrivState.call, enforce_filters]
    split_ifs <;> simp_all
  · simp only [seccomp_stage, enforce_filters]
    split_ifs <;> simp_all
  · simp only [seccomp_stage, enforce_filters]
    split_ifs <;> simp_all

/-- C10 at a configuration with a capability keep-list and seccomp keep and
drop lists: the capability set ends empty, the default/drop filter is used. -/
theorem enforce_filters_overrides_witness :
    (set_caps (specCapOps [2, 3]) (enforce_filters globals_keep) ⟨[0, 1, 2, 5], []⟩).caps = [] ∧
    seccomp_stage (enforce_filters globals_keep) = [PrivCall.seccomp_filter_drop] ∧
    seccomp_stage globals_keep = [PrivCall.seccomp_filter_keep] ∧
    (set_caps (specCapOps [2, 3]) globals_keep ⟨[0, 1, 2, 5], []⟩).caps = [1, 5] :=
  ⟨(enforce_filters_overrides (specCapOps [2, 3]) globals_keep ⟨[0, 1, 2, 5], []⟩
      (fun _ => rfl) rfl).2.2.2.2.2.2.2.1, by decide, by decide, by decide⟩

/-! ### Seccomp stage -/

/-- C11: the seccomp stage of `sandbox()` makes its calls in the fixed order
protocol filter (load, then save), general filter, memory write+execute
filter, each only if configured.  The protocol filter is loaded exactly when
`cfg.protocol` is set and the memory filter exactly when
`arg_memory_deny_write_execute` is set.  At most one general filter call is
made: with `arg_seccomp == 1` it is `seccomp_filter_keep` when a keep list is
present (whatever the drop list is) and `seccomp_filter_drop` otherwise; with
seccomp not enabled there is none. -/
theorem seccomp_stage_order (g : Globals) :
    List.Sublist (seccomp_stage g)
      [PrivCall.seccomp_load SeccompFile.RUN_SECCOMP_PROTOCOL, PrivCall.protocol_filter_save,
       (if g.seccomp_list_keep.isSome then PrivCall.seccomp_filter_keep
        else PrivCall.seccomp_filter_drop),
       PrivCall.seccomp_load SeccompFile.RUN_SECCOMP_MDWX] ∧
    (seccomp_stage g).count PrivCall.seccomp_filter_keep +
      (seccomp_stage g).count PrivCall.seccomp_filter_drop ≤ 1 ∧
    (PrivCall.seccomp_load SeccompFile.RUN_SECCOMP_PROTOCOL ∈ seccomp_stage g ↔
      g.protocol.isSome = true) ∧
    (PrivCall.protocol_filter_save ∈ seccomp_stage g ↔ g.protocol.isSome = true) ∧
    (PrivCall.seccomp_load SeccompFile.RUN_SECCOMP_MDWX ∈ seccomp_stage g ↔
      g.arg_memory_deny_write_execute ≠ 0) ∧
    (PrivCall.seccomp_filter_keep ∈ seccomp_stage g ↔
      (g.arg_seccomp = 1 ∧ g.seccomp_list_keep.isSome = true)) ∧
    (PrivCall.seccomp_filter_drop ∈ seccomp_stage g ↔
      (g.arg_seccomp = 1 ∧ g.seccomp_list_keep.isSome = false)) := by
  refine ⟨?_, ?_, ?_, ?_, ?_, ?_, ?_⟩ <;>
    simp only [seccomp_stage] <;>
    by_cases h1 : g.protocol.isSome = true <;>
    by_cases h2 : g.arg_seccomp = 1 <;>
    by_cases h3 : g.seccomp_list_keep.isSome = true <;>
    by_cases h4 : g.arg_memory_deny_write_execute = 0 <;>
    simp [h1, h2, h3, h4]

/-- C11 at a configuration with protocol filter, seccomp with keep and drop
lists, and the memory filter: the keep variant is the general filter. -/
theorem seccomp_stage_order_witness :
    seccomp_stage globals_all_filters =
      [PrivCall.seccomp_load SeccompFile.RUN_SECCOMP_PROTOCOL, PrivCall.protocol_filter_save,
       PrivCall.seccomp_filter_keep, PrivCall.seccomp_load SeccompFile.RUN_SECCOMP_MDWX] ∧
    PrivCall.seccomp_filter_keep ∈ seccomp_stage globals_all_filters :=
  ⟨by decide, (seccomp_stage_order globals_all_filters).2.2.2.2.2.1.mpr ⟨rfl, rfl⟩⟩

/-! ### Mount namespace -/

/-- C12: `chk_chroot` is run only when the `mount` call fails.  With the
environment variable `container` set it returns without a message, whatever
`stat("/")` answers.  Without it, a root whose inode number is 2 is fatal:
the error is reported and the process exits with code 1; a root whose inode
number is not 2 is not fatal.  (Without `container`, a failing `stat("/")` is
fatal as well.) -/
theorem chk_chroot_cases (env : ChrootEnv) :
    (∀ rv : Int, 0 ≤ rv → mount_slave rv env = ([], VoidEnd.returned)) ∧
    (∀ rv : Int, rv < 0 → mount_slave rv env = chk_chroot env) ∧
    (env.container.isSome = true → chk_chroot env = ([], VoidEnd.returned)) ∧
    (env.container = none → env.stat_root = some 2 →
      chk_chroot env = (["Error: cannot mount filesystem as slave\n"], VoidEnd.exited 1)) ∧
    (env.container = none → ∀ st_ino, env.stat_root = some st_ino → st_ino ≠ 2 →
      chk_chroot env = ([], VoidEnd.returned)) ∧
    (env.container = none → env.stat_root = none →
      chk_chroot env = (["Error: cannot mount filesystem as slave\n"], VoidEnd.exited 1)) := by
  refine ⟨?_, ?_, ?_, ?_, ?_, ?_⟩
  · intro rv h
    unfold mount_slave
    rw [if_neg (by omega)]
  · intro rv h
    unfold mount_slave
    rw [if_pos h]
  · intro h
    unfold chk_chroot
    cases hc : env.container with
    | none => simp [hc] at h
    | some c => rfl
  · intro hc hs
    unfold chk_chroot
    rw [hc, hs]
    rfl
  · intro hc st_ino hs hne
    unfold chk_chroot
    rw [hc, hs]
    simp [hne]
  · intro hc hs
    unfold chk_chroot
    rw [hc, hs]

/-- C12 at four environments: a container with root inode 2, no container with
root inode 2, no container with root inode 1234, and a successful `mount`. -/
theorem chk_chroot_cases_witness :
    chk_chroot ⟨some "lxc", some 2⟩ = ([], VoidEnd.returned) ∧
    mount_slave (-1) ⟨none, some 2⟩ =
      (["Error: cannot mount filesystem as slave\n"], VoidEnd.exited 1) ∧
    chk_chroot ⟨none, some 1234⟩ = ([], VoidEnd.returned) ∧
    mount_slave 0 ⟨none, some 2⟩ = ([], VoidEnd.returned) :=
  ⟨(chk_chroot_cases ⟨some "lxc", some 2⟩).2.2.1 rfl,
   ((chk_chroot_cases ⟨none, some 2⟩).2.1 (-1) (by decide)).trans
     ((chk_chroot_cases ⟨none, some 2⟩).2.2.2.1 rfl rfl),
   (chk_chroot_cases ⟨none, some 1234⟩).2.2.2.2.1 rfl 1234 rfl (by decide),
   (chk_chroot_cases ⟨none, some 2⟩).1 0 (by decide)⟩

/-! ### Working directory -/

/-- C14: the working-directory block, for every combination of outcomes.  If
`chdir(cfg.cwd)` succeeds it is the only call.  Otherwise (no directory
configured, or it cannot be entered) `chdir("/")` follows and its failure is
`errExit`; then, only if `cfg.homedir` is set and `stat` finds it,
`chdir(cfg.homedir)` follows and its failure is `errExit`.  A configured
directory that cannot be entered and a home directory that `stat` does not
find are not fatal: the block ends in the root directory. -/
theorem resolve_cwd_cases (env : CwdEnv) :
    (∀ dir, env.cwd = some dir → env.chdir_cwd_ok = true →
      resolve_cwd env = ([CwdEv.chdir dir], CwdEnd.done dir)) ∧
    ((env.cwd = none ∨ env.chdir_cwd_ok = false) →
      (env.chdir_root_ok = false →
        resolve_cwd env =
          ((env.cwd.map CwdEv.chdir).toList ++ [CwdEv.chdir "/"], CwdEnd.errExit "chdir")) ∧
      (env.chdir_root_ok = true → env.homedir = none →
        resolve_cwd env =
          ((env.cwd.map CwdEv.chdir).toList ++ [CwdEv.chdir "/"], CwdEnd.done "/")) ∧
      (env.chdir_root_ok = true → ∀ home, env.homedir = some home →
        env.stat_home_ok = false →
        resolve_cwd env =
          ((env.cwd.map CwdEv.chdir).toList ++ [CwdEv.chdir "/", CwdEv.stat home],
           CwdEnd.done "/")) ∧
      (env.chdir_root_ok = true → ∀ home, env.homedir = some home →
        env.stat_home_ok = true → env.chdir_home_ok = true →
        resolve_cwd env =
          ((env.cwd.map CwdEv.chdir).toList ++
            [CwdEv.chdir "/", CwdEv.stat home, CwdEv.chdir home], CwdEnd.done home)) ∧
      (env.chdir_root_ok = true → ∀ home, env.homedir = some home →
        env.stat_home_ok = true → env.chdir_home_ok = false →
        resolve_cwd env =
          ((env.cwd.map CwdEv.chdir).toList ++
            [CwdEv.chdir "/", CwdEv.stat home, CwdEv.chdir home], CwdEnd.errExit "chdir"))) := by
  refine ⟨?_, ?_⟩
  · intro dir hc hok
    unfold resolve_cwd
    rw [hc]
    simp [hok]
  · intro hfail
    have hres : resolve_cwd env = chdir_fallback env (env.cwd.map CwdEv.chdir).toList := by
      unfold resolve_cwd
      cases hc : env.cwd with
      | none => rfl
      | some dir =>
        have hok : env.chdir_cwd_ok = false := by
          rcases hfail with h | h
          · rw [hc] at h; cases h
          · exact h
        simp [hok]
    rw [hres]
    unfold chdir_fallback
    refine ⟨?_, ?_, ?_, ?_, ?_⟩
    · intro h
      simp [h]
    · intro h hh
      simp [h, hh]
    · intro h home hh hs
      simp [h, hh, hs]
    · intro h home hh hs hc
      simp [h, hh, hs, hc]
    · intro h home hh hs hc
      simp [h, hh, hs, hc]

/-- C14 at two environments: the configured directory is entered; and the
configured directory cannot be entered while the home directory does not
exist, which leaves the process in the root directory. -/
theorem resolve_cwd_cases_witness :
    resolve_cwd cwd_env_ok = ([CwdEv.chdir "/work"], CwdEnd.done "/work") ∧
    resolve_cwd cwd_env_fallback =
      ([CwdEv.chdir "/work", CwdEv.chdir "/", CwdEv.stat "/home/u"], CwdEnd.done "/") :=
  ⟨(resolve_cwd_cases cwd_env_ok).1 "/work" rfl rfl,
   ((resolve_cwd_cases cwd_env_fallback).2 (Or.inr rfl)).2.2.1 rfl "/home/u" rfl rfl⟩

/-! ### User namespace -/

/-- The seccomp steps are not applications of `set_caps`. -/
theorem count_set_caps_seccomp (l : List PrivCall) :
    (l.map Step.seccomp).count Step.set_caps = 0 := by
  induction l with
  | nil => rfl
  | cons c cs ih => simp [List.count_cons, ih]

/-- When `save_nogroups` and the handshake return, the part of `sandbox()`
after the first `set_caps` runs to its end: its steps and its final state. -/
theorem userns_stage_completed (ops : CapOps) (env : UsernsEnv) (g : Globals) (s : PrivState)
    (hnog : g.arg_nogroups = 0 ∨ env.nogroups_fopen_ok = true)
    (hn : env.notify_other_exit = none) (hw : env.wait_for_other_exit = none) :
    userns_stage ops env g s =
      ((if g.arg_nogroups = 0 then [] else [Step.write_groups_cfg]) ++
        (if g.arg_noroot ≠ 0 then [Step.unshare_newuser] else []) ++
        [Step.notify_other, Step.close_child_to_parent, Step.wait_for_other,
         Step.close_parent_to_child] ++
        (if g.arg_noroot ≠ 0 ∧ env.unshare_rv ≠ -1 then [Step.set_caps] else []),
       if g.arg_noroot ≠ 0 then
         if env.unshare_rv = -1 then StageEnd.completed { g with arg_noroot := 0 } s
         else StageEnd.completed g (set_caps ops g (userns_reset env.ns_default s))
       else StageEnd.completed g s) := by
  have hsave : save_nogroups env.nogroups_fopen_ok g =
      ((if g.arg_nogroups = 0 then [] else [Step.write_groups_cfg]), VoidEnd.returned) := by
    unfold save_nogroups
    rcases hnog with h | h
    · simp [h]
    · by_cases h0 : g.arg_nogroups = 0
      · simp [h0]
      · simp [h0, h]
  unfold userns_stage
  rw [hsave]
  simp only [handshake_and_reapply, unshare_step, hn, hw]
  by_cases h1 : g.arg_noroot = 0
  · simp [h1]
  · by_cases h2 : env.unshare_rv = -1
    · simp [h1, h2]
    · simp [h1, h2]

/-- C13: when `save_nogroups` and the handshake calls return, the part of
`sandbox()` from the first `set_caps` on runs to its end whatever `unshare`
returns, and `set_caps` is applied a second time if and only if `arg_noroot`
was set and `unshare(CLONE_NEWUSER)` did not fail; the second application is
the last step, after the second `wait_for_other`.  When `unshare` fails,
`arg_noroot` is cleared, the run goes on, `set_caps` is applied exactly once
and the privilege state is the one the first application left. -/
theorem set_caps_reapplied_iff_userns (ops : CapOps) (env : UsernsEnv) (g : Globals)
    (s : PrivState)
    (hnog : g.arg_nogroups = 0 ∨ env.nogroups_fopen_ok = true)
    (hn : env.notify_other_exit = none) (hw : env.wait_for_other_exit = none) :
    (∃ g1 s1, (security_stage ops env g s).2 = StageEnd.completed g1 s1) ∧
    ((security_stage ops env g s).1.count Step.set_caps = 2 ↔
      (g.arg_noroot ≠ 0 ∧ env.unshare_rv ≠ -1)) ∧
    ((security_stage ops env g s).1.count Step.set_caps = 1 ↔
      ¬ (g.arg_noroot ≠ 0 ∧ env.unshare_rv ≠ -1)) ∧
    (g.arg_noroot ≠ 0 ∧ env.unshare_rv ≠ -1 →
      (∃ pre, (security_stage ops env g s).1 =
        pre ++ [Step.wait_for_other, Step.close_parent_to_child, Step.set_caps]) ∧
      (security_stage ops env g s).2 =
        StageEnd.completed g (set_caps ops g (userns_reset env.ns_default (set_caps ops g s)))) ∧
    (g.arg_noroot ≠ 0 → env.unshare_rv = -1 →
      (security_stage ops env g s).2 =
        StageEnd.completed { g with arg_noroot := 0 } (set_caps ops g s)) := by
  have hst := userns_stage_completed ops env g (set_caps ops g s) hnog hn hw
  have hcount : (security_stage ops env g s).1.count Step.set_caps =
      if g.arg_noroot ≠ 0 ∧ env.unshare_rv ≠ -1 then 2 else 1 := by
    unfold security_stage
    simp only [hst, List.count_cons, List.count_append, count_set_caps_seccomp]
    by_cases h0 : g.arg_nogroups = 0 <;> by_cases h1 : g.arg_noroot = 0 <;>
      by_cases h2 : env.unshare_rv = -1 <;> simp [h0, h1, h2]
  refine ⟨?_, ?_, ?_, ?_, ?_⟩
  · unfold security_stage
    simp only [hst]
    split_ifs <;> exact ⟨_, _, rfl⟩
  · rw [hcount]
    by_cases h : g.arg_noroot ≠ 0 ∧ env.unshare_rv ≠ -1 <;> simp [h]
  · rw [hcount]
    by_cases h : g.arg_noroot ≠ 0 ∧ env.unshare_rv ≠ -1 <;> simp [h]
  · intro h
    unfold security_stage
    simp only [hst]
    refine ⟨⟨Step.set_caps :: (seccomp_stage g).map Step.seccomp ++
      ((if g.arg_nogroups = 0 then [] else [Step.write_groups_cfg]) ++
        (if g.arg_noroot ≠ 0 then [Step.unshare_newuser] else []) ++
        [Step.notify_other, Step.close_child_to_parent]), ?_⟩, ?_⟩
    · simp [h]
    · simp [h.1, h.2]
  · intro h1 h2
    unfold security_stage
    simp only [hst]
    simp [h1, h2]

/-- C13 at a configuration that asks for a user namespace: when `unshare`
succeeds `set_caps` is applied twice; when it fails, once, and the run ends
with `arg_noroot` cleared. -/
theorem set_caps_reapplied_iff_userns_witness :
    (security_stage (specCapOps [2]) env_userns_ok globals_noroot ⟨[0, 1, 2, 3], []⟩).1.count
      Step.set_caps = 2 ∧
    (security_stage (specCapOps [2]) env_userns_denied globals_noroot ⟨[0, 1, 2, 3], []⟩).1.count
      Step.set_caps = 1 ∧
    (security_stage (specCapOps [2]) env_userns_denied globals_noroot ⟨[0, 1, 2, 3], []⟩).2 =
      StageEnd.completed { globals_noroot with arg_noroot := 0 }
        (set_caps (specCapOps [2]) globals_noroot ⟨[0, 1, 2, 3], []⟩) :=
  ⟨(set_caps_reapplied_iff_userns (specCapOps [2]) env_userns_ok globals_noroot
      ⟨[0, 1, 2, 3], []⟩ (Or.inl rfl) rfl rfl).2.1.mpr ⟨by decide, by decide⟩,
   (set_caps_reapplied_iff_userns (specCapOps [2]) env_userns_denied globals_noroot
      ⟨[0, 1, 2, 3], []⟩ (Or.inl rfl) rfl rfl).2.2.1.mpr (by decide),
   (set_caps_reapplied_iff_userns (specCapOps [2]) env_userns_denied globals_noroot
      ⟨[0, 1, 2, 3], []⟩ (Or.inl rfl) rfl rfl).2.2.2.2 (by decide) rfl⟩

end Firejail
